import Mathlib

set_option maxRecDepth 20000

/-!
Verification of the rendering-orchestration core of the
`plantuml-markdown-preview` extension: the LRU content cache, the
SHA-256 fingerprint input stream, the batch scheduler
(`batchRender`, `renderBatchLocal`), the local / server render paths
(`renderToSvg`, `renderToSvgAsync`, `renderToSvgServer`), the structured
error reporter (`parseStdrpt`, `buildErrorMessage`) and the PlantUML
URL encoding (`encodePlantUml`).

The TypeScript source is embedded shallowly: JavaScript `Map` objects
become association lists in insertion order, the asynchronous process /
HTTP completions become explicit outcome values, and the SHA-256 digest
is replaced by the exact byte/field stream fed to it (collisions of the
digest itself are out of scope).  All definitions are executable.
-/

namespace PlantUml

/-! ## Characters and strings

Small executable replacements for the JavaScript string primitives used
by the source.  They operate on `String.data` (`List Char`) so that all
theorems can be settled by kernel evaluation.
-/

/-- The whitespace characters trimmed by JavaScript `String.prototype.trim`
(restricted to the ASCII ones, which are the only ones relevant here). -/
def isJsWhitespace (c : Char) : Bool :=
  c = ' ' || c = '\t' || c = '\n' || c = '\r'

/-- JavaScript `s.trim()`: remove leading and trailing whitespace. -/
def jsTrim (s : String) : String :=
  String.mk (((s.data.dropWhile isJsWhitespace).reverse.dropWhile isJsWhitespace).reverse)

/-- Split a character list at every newline, JavaScript `split('\n')` style:
the empty string yields `[""]` and a trailing newline yields a final `""`. -/
def splitNl : List Char → List (List Char)
  | [] => [[]]
  | c :: rest =>
    if c = '\n' then [] :: splitNl rest
    else
      match splitNl rest with
      | [] => [[c]]
      | g :: gs => (c :: g) :: gs

/-- JavaScript `s.split('\n')`. -/
def splitLines (s : String) : List String :=
  (splitNl s.data).map String.mk

/-- JavaScript `s.startsWith(p)`. -/
def strIsPrefixOf (p s : String) : Bool :=
  p.data.isPrefixOf s.data

/-- Does `p` occur as a contiguous sublist of the character list? -/
def infixCheck (p : List Char) : List Char → Bool
  | [] => p.isEmpty
  | c :: rest => p.isPrefixOf (c :: rest) || infixCheck p rest

/-- JavaScript `s.includes(p)`. -/
def containsSubstr (s p : String) : Bool :=
  infixCheck p.data s.data

/-- Parse a decimal digit. -/
def digitVal? (c : Char) : Option Nat :=
  if '0' ≤ c ∧ c ≤ '9' then some (c.toNat - 48) else none

/-- Parse a non-empty all-digit character list as a natural number
(the semantics of the regex group `(\d+)` fed to `parseInt`). -/
def digitsToNat? (cs : List Char) : Option Nat :=
  if cs.isEmpty then none
  else cs.foldl (fun acc c =>
    match acc, digitVal? c with
    | some a, some d => some (a * 10 + d)
    | _, _ => none) (some 0)

/-- JavaScript `s.padStart(n)` (pads with spaces). -/
def padStartSpaces (s : String) (n : Nat) : String :=
  String.mk (List.replicate (n - s.length) ' ') ++ s

/-- `escapeHtml` (src/src/utils.ts): single-pass replacement of the five
HTML special characters by their entity references. -/
def escapeHtmlChar (c : Char) : String :=
  if c = '&' then "&amp;"
  else if c = '<' then "&lt;"
  else if c = '>' then "&gt;"
  else if c = '"' then "&quot;"
  else if c = '\'' then "&#39;"
  else String.mk [c]

/-- `escapeHtml` (src/src/utils.ts). -/
def escapeHtml (s : String) : String :=
  String.join (s.data.map escapeHtmlChar)

/-- `errorHtml` (src/src/utils.ts): wrap a message in the red-bordered div. -/
def errorHtml (message : String) : String :=
  "<div style=\"border:1px solid #f66;background:#fff0f0;padding:0.5em 1em;border-radius:4px;color:#c00;font-size:0.9em;text-align:left;\">"
    ++ message ++ "</div>"

/-- `ensureStartEndTags` (src/src/utils.ts): wrap with
`@startuml`/`@enduml` when no `@start` tag is present. -/
def ensureStartEndTags (content : String) : String :=
  if !(strIsPrefixOf "@start" content) then
    "@startuml\n" ++ content ++ "\n@enduml"
  else content

/-! ## JavaScript `Map` model

A JavaScript `Map` keeps its entries in insertion order; `set` on an
existing key updates the value in place, `set` on a fresh key appends,
`delete` removes the (unique) entry of a key, and iteration of
`map.keys()` starts at the oldest entry.  We model a map as an
association list in insertion order.
-/

variable {K V : Type} [DecidableEq K]

/-- `map.has(k)`. -/
def jsHas (m : List (K × V)) (k : K) : Bool :=
  m.any (fun p => p.1 = k)

/-- `map.get(k)` (pure lookup, no reordering). -/
def jsGet? (m : List (K × V)) (k : K) : Option V :=
  (m.find? (fun p => p.1 = k)).map Prod.snd

/-- `map.delete(k)`: remove the first (in a real `Map`: the unique)
entry with key `k`. -/
def jsDelete (m : List (K × V)) (k : K) : List (K × V) :=
  m.eraseP (fun p => p.1 = k)

/-- `map.set(k, v)`: update in place when `k` is present, else append. -/
def jsSet (m : List (K × V)) (k : K) (v : V) : List (K × V) :=
  if jsHas m k then m.map (fun p => if p.1 = k then (k, v) else p)
  else m ++ [(k, v)]

/-- The keys of a map, in insertion order. -/
def jsKeys (m : List (K × V)) : List K :=
  m.map Prod.fst

/-! ## `LruCache` (src/src/utils.ts, lines 125-149)

```ts
export class LruCache<V> {
    private readonly map = new Map<string, V>();
    constructor(private readonly maxSize: number) {}
    get(key) { if (!map.has(key)) return undefined;
               const value = map.get(key)!; map.delete(key);
               map.set(key, value); return value; }
    set(key, value) { if (map.has(key)) map.delete(key);
                      if (map.size >= maxSize) {
                        const oldest = map.keys().next().value;
                        if (oldest !== undefined) map.delete(oldest); }
                      map.set(key, value); }
    clear() { map.clear(); }
}
```

In the source the key type is `string` (a SHA-256 hex digest); the class
body is generic in the key, so the model keeps `K` as a parameter.
-/

structure LruCache (K V : Type) where
  maxSize : Nat
  map : List (K × V)

namespace LruCache

/-- A fresh cache (`new LruCache(maxSize)`). -/
def empty (K V : Type) (maxSize : Nat) : LruCache K V :=
  ⟨maxSize, []⟩

/-- `LruCache.get`: on a hit the entry is deleted and re-inserted, which
moves it to the most-recently-used (last) position. Returns the value
(`undefined` = `none` on a miss) together with the updated cache. -/
def get (c : LruCache K V) (k : K) : Option V × LruCache K V :=
  match jsGet? c.map k with
  | none => (none, c)
  | some v => (some v, ⟨c.maxSize, jsSet (jsDelete c.map k) k v⟩)

/-- `LruCache.set`: delete an existing entry for the key, evict the
oldest entry when at (or beyond) capacity, then insert at the end. -/
def set (c : LruCache K V) (k : K) (v : V) : LruCache K V :=
  let m1 := if jsHas c.map k then jsDelete c.map k else c.map
  let m2 :=
    if m1.length ≥ c.maxSize then
      match m1.head? with
      | some oldest => jsDelete m1 oldest.1
      | none => m1
    else m1
  ⟨c.maxSize, jsSet m2 k v⟩

/-- `LruCache.clear`. -/
def clear (c : LruCache K V) : LruCache K V :=
  ⟨c.maxSize, []⟩

/-- Pure lookup (reads the value without the LRU promotion); used only
to state theorems. -/
def lookup (c : LruCache K V) (k : K) : Option V :=
  jsGet? c.map k

end LruCache

/-! ## `computeHash` (src/src/utils.ts, lines 160-167)

```ts
export function computeHash(...parts: string[]): string {
    const h = crypto.createHash("sha256");
    for (let i = 0; i < parts.length; i++) {
        if (i > 0) h.update("NUL");
        h.update(parts[i]);
    }
    return h.digest("hex");
}
```

We model the byte stream fed to the digest (each part contributes its
UTF-8 bytes, with a single NUL byte between consecutive parts); bytes
are natural numbers `< 256`.  The UTF-8 encoding of a string never
contains the byte `0` unless the string contains the character
`U+0000`, so a NUL-free field is exactly a `0`-free byte list.
-/

/-- The byte stream `computeHash` feeds to SHA-256: the parts joined by
a single NUL (`0`) byte. -/
def computeHashStream (parts : List (List Nat)) : List Nat :=
  match parts with
  | [] => []
  | p :: rest => p ++ rest.flatMap (fun q => 0 :: q)

/-! ## PlantUML custom base64 encoding
(src/src/plantuml.ts, `plantumlEncode` / `encodePlantUml`)

```ts
const PLANTUML_ALPHABET = "0123456789ABCDEFGHIJKLMNOPQRSTUVWXYZabcdefghijklmnopqrstuvwxyz-_";
function encode3bytes(b1, b2, b3) {
    const c1 = b1 >> 2;
    const c2 = ((b1 & 0x3) << 4) | (b2 >> 4);
    const c3 = ((b2 & 0xF) << 2) | (b3 >> 6);
    const c4 = b3 & 0x3F;
    return A[c1] + A[c2] + A[c3] + A[c4];
}
function plantumlEncode(data) {
    for (i = 0; i < len; i += 3) {
        b1 = data[i]; b2 = i+1 < len ? data[i+1] : 0; b3 = i+2 < len ? data[i+2] : 0;
        result += encode3bytes(b1, b2, b3); }
}
export function encodePlantUml(content) {
    return plantumlEncode(deflateRawSync(Buffer.from(content, "utf-8"), { level: 9 }));
}
```

`deflateRawSync` is the external zlib library, not code of this
repository; the model takes the deflate function as a parameter.
-/

/-- The custom PlantUML base64 alphabet: digits, uppercase, lowercase,
then `-` and `_`. -/
def PLANTUML_ALPHABET : List Char :=
  "0123456789ABCDEFGHIJKLMNOPQRSTUVWXYZabcdefghijklmnopqrstuvwxyz-_".data

/-- Look up a 6-bit value in the alphabet. -/
def alphaChar (n : Nat) : Char :=
  PLANTUML_ALPHABET.getD n '?'

/-- `encode3bytes`: pack 3 bytes into 4 alphabet symbols. -/
def encode3bytes (b1 b2 b3 : Nat) : List Char :=
  [alphaChar (b1 >>> 2),
   alphaChar (((b1 &&& 0x3) <<< 4) ||| (b2 >>> 4)),
   alphaChar (((b2 &&& 0xF) <<< 2) ||| (b3 >>> 6)),
   alphaChar (b3 &&& 0x3F)]

/-- The 3-bytes-at-a-time loop of `plantumlEncode`, with the final
partial group zero-padded. -/
def plantumlEncodeBytes : List Nat → List Char
  | [] => []
  | [b1] => encode3bytes b1 0 0
  | [b1, b2] => encode3bytes b1 b2 0
  | b1 :: b2 :: b3 :: rest => encode3bytes b1 b2 b3 ++ plantumlEncodeBytes rest

/-- `plantumlEncode`. -/
def plantumlEncode (data : List Nat) : String :=
  String.mk (plantumlEncodeBytes data)

/-- UTF-8 encoding of one code point (RFC 3629 bit packing). -/
def utf8EncodeCharNat (n : Nat) : List Nat :=
  if n < 0x80 then [n]
  else if n < 0x800 then
    [0xC0 ||| (n >>> 6), 0x80 ||| (n &&& 0x3F)]
  else if n < 0x10000 then
    [0xE0 ||| (n >>> 12), 0x80 ||| ((n >>> 6) &&& 0x3F), 0x80 ||| (n &&& 0x3F)]
  else
    [0xF0 ||| (n >>> 18), 0x80 ||| ((n >>> 12) &&& 0x3F),
     0x80 ||| ((n >>> 6) &&& 0x3F), 0x80 ||| (n &&& 0x3F)]

/-- UTF-8 bytes of a string (`Buffer.from(content, "utf-8")`). -/
def utf8Bytes (s : String) : List Nat :=
  s.data.flatMap (fun c => utf8EncodeCharNat c.toNat)

/-- `encodePlantUml`, with the external zlib `deflateRawSync` taken as
the parameter `deflate`. -/
def encodePlantUml (deflate : List Nat → List Nat) (content : String) : String :=
  plantumlEncode (deflate (utf8Bytes content))

/-- Inverse of the alphabet lookup. -/
def alphaIndex (c : Char) : Nat :=
  PLANTUML_ALPHABET.indexOf c

/-- Mathematical inverse of `encode3bytes`: unpack 4 six-bit values into
3 bytes (standard base64 bit packing). -/
def decode4 (i1 i2 i3 i4 : Nat) : List Nat :=
  [4 * i1 + i2 / 16, 16 * (i2 % 16) + i3 / 4, 64 * (i3 % 4) + i4]

/-- Decode a sextet list four at a time. -/
def plantumlDecodeSextets : List Nat → List Nat
  | i1 :: i2 :: i3 :: i4 :: rest => decode4 i1 i2 i3 i4 ++ plantumlDecodeSextets rest
  | _ => []

/-- Decode an encoded string back to the byte list (still carrying the
zero padding of the final partial group). -/
def plantumlDecode (s : String) : List Nat :=
  plantumlDecodeSextets (s.data.map alphaIndex)

/-! ## `parseStdrpt` and `buildErrorMessage`
(src/src/plantuml.ts / src/unnamed/part_003)

`parseStdrpt` scans the `-stdrpt:1` stderr for the first line of the
form `lineNumber=<digits>` (regex `^lineNumber=(\d+)$` with the `m`
flag) and the first line `label=<nonempty>`, converting the 1-indexed
line number to 0-indexed by subtracting one.
-/

/-- `parseStdrpt`: `some (lineNumber0, label)` where `lineNumber0` is
already 0-indexed (`parseInt(d, 10) - 1`, an `Int` because a reported
`lineNumber=0` yields `-1`). -/
def parseStdrpt (stderr : String) : Option (Int × String) :=
  if stderr = "" then none
  else
    let ls := splitNl stderr.data
    match ls.findSome? (fun l =>
        if ("lineNumber=".data).isPrefixOf l then digitsToNat? (l.drop 11) else none) with
    | none => none
    | some n =>
      let label := (ls.findSome? (fun l =>
          if ("label=".data).isPrefixOf l ∧ l.length > 6
          then some (String.mk (l.drop 6)) else none)).getD "Error"
      some ((n : Int) - 1, label)

/-- The inner `renderLine` of `buildErrorMessage`: one gutter-numbered
source line, highlighted with a red `>>`-marked span when `i` is the
reported error line. -/
def renderLine (ls : List String) (pad : Nat) (lineNumber : Nat) (i : Nat) : String :=
  let num := padStartSpaces (toString (i + 1)) pad
  if i = lineNumber then
    "<span style=\"display:inline-block;width:100%;background:#fdd;color:#c00;font-weight:bold;\">&gt;&gt; "
      ++ num ++ " | " ++ escapeHtml (ls.getD i "") ++ "</span>\n"
  else
    "   " ++ num ++ " | " ++ escapeHtml (ls.getD i "") ++ "\n"

/-- The indices of the source lines `buildErrorMessage` renders (the two
`for` loops): always the first `HEAD = 5` lines, always a window of 15
lines before / 2 after the error line, the gap collapsed when it spans
at least 3 lines.  `len` is the number of lines, `ln` the 0-based error
line (the arithmetic is stated on `Nat`; inside the guarded branch of
`buildErrorMessage` it agrees with the JavaScript number arithmetic). -/
def contextIndices (len ln : Nat) : List Nat :=
  let headEnd := min 4 (len - 1)
  let ctxStart := ln - 15
  let ctxEnd := min (len - 1) (ln + 2)
  if headEnd + 4 ≤ ctxStart then
    List.range (headEnd + 1) ++ List.range' ctxStart (ctxEnd + 1 - ctxStart)
  else
    List.range (ctxEnd + 1)

/-- `buildErrorMessage`: build the user-facing error HTML from stderr.
On a successful `parseStdrpt` parse the reported 0-indexed line number
is reduced by `lineOffset` (1 when `@startuml` was auto-inserted), the
heading shows it 1-based, and a bounded source excerpt is rendered with
the error line highlighted; otherwise raw stderr (or the exit code) is
shown. -/
def buildErrorMessage (stderr displayContent : String) (lineOffset : Int) (exitCode : Int) : String :=
  let ls := splitLines displayContent
  match parseStdrpt stderr with
  | some (n, label) =>
    let lineNumber : Int := n - lineOffset
    let heading := "<strong>" ++ escapeHtml label
      ++ " (line " ++ toString (lineNumber + 1) ++ ")</strong>"
    if 0 ≤ lineNumber ∧ lineNumber < (ls.length : Int) then
      let ln : Nat := lineNumber.toNat
      let headEnd := min 4 (ls.length - 1)
      let ctxStart := ln - 15
      let ctxEnd := min (ls.length - 1) (ln + 2)
      let pad := (toString (ctxEnd + 1)).length
      let body :=
        if headEnd + 4 ≤ ctxStart then
          String.join ((List.range (headEnd + 1)).map (renderLine ls pad ln))
            ++ "\n   ... ( skipping " ++ toString (ctxStart - headEnd - 1) ++ " lines ) ...\n\n"
            ++ String.join ((List.range' ctxStart (ctxEnd + 1 - ctxStart)).map (renderLine ls pad ln))
        else
          String.join ((List.range (ctxEnd + 1)).map (renderLine ls pad ln))
      errorHtml (heading
        ++ "<pre style=\"margin:0.5em 0 0;white-space:pre-wrap;font-size:0.85em;line-height:1.5;background:#fff5f5;padding:0.4em 0.6em;border-radius:3px;\">"
        ++ body ++ "</pre>")
    else
      errorHtml heading
  | none =>
    let t := jsTrim stderr
    let msg := if t = "" then "exit code " ++ toString exitCode else t
    errorHtml ("PlantUML error:"
      ++ "<br><pre style=\"margin:0.4em 0 0;white-space:pre-wrap;font-size:0.85em;\">"
      ++ escapeHtml msg ++ "</pre>")

/-! ## Render configuration and context
(src/unnamed/part_003, `prepareRenderContext`; src/src/utils.ts,
`resolveJavaCommand`)

The SHA-256 cache key `computeHash(content, jarPath, ...)` is modelled
as the list of its field strings (`hashKey : List String`): two calls
get the same digest exactly when they feed the same fields (digest
collisions are out of scope). -/

/-- Settings relevant to a local render.  `javaHomeEnv` models the
`process.env.JAVA_HOME` environment variable read by
`resolveJavaCommand`, threaded explicitly. -/
structure Config where
  jarPath : String
  javaPath : String
  dotPath : String
  plantumlTheme : String
  javaHomeEnv : Option String

/-- `resolveJavaCommand` (src/src/utils.ts): explicit setting, then
`$JAVA_HOME/bin/java`, then plain `java`.  `path.join` is modelled with
the `/` separator. -/
def resolveJavaCommand (configJavaPath : String) (javaHome : Option String) : String :=
  let p := if configJavaPath = "" then "java" else configJavaPath
  if p ≠ "java" then p
  else
    match javaHome with
    | some h => h ++ "/bin/java"
    | none => "java"

/-- Prepared render context (`RenderContext` in the source). -/
structure RenderContext where
  javaPath : String
  args : List String
  content : String
  trimmed : String
  tagsAdded : Bool
  hashKey : List String

/-- The error shown when `jarPath` is missing (with `vscode.l10n.t`
modelled as the identity on the message). -/
def jarMissingError : String :=
  errorHtml ("PlantUML jar is not configured.<br><code>plantumlMarkdownPreview.jarPath</code>")

/-- `prepareRenderContext` (src/unnamed/part_003, lines 65-92). -/
def prepareRenderContext (pumlContent : String) (config : Config) : Except String RenderContext :=
  let jarPath := config.jarPath
  let javaPath := if config.javaPath = "" then "java" else config.javaPath
  let dotPath := if config.dotPath = "" then "dot" else config.dotPath
  let plantumlTheme := if config.plantumlTheme = "" then "default" else config.plantumlTheme
  if jarPath = "" then
    .error jarMissingError
  else
    let trimmed := jsTrim pumlContent
    let tagsAdded := !(strIsPrefixOf "@start" trimmed)
    let content := ensureStartEndTags trimmed
    let hashKey := [content, jarPath, resolveJavaCommand javaPath config.javaHomeEnv,
                    dotPath, plantumlTheme]
    let args := ["-Djava.awt.headless=true", "-jar", jarPath, "-pipe", "-tsvg",
                 "-charset", "UTF-8", "-stdrpt:1"]
      ++ (if dotPath ≠ "dot" then ["-graphvizdot", dotPath] else [])
      ++ (if plantumlTheme ≠ "default" then ["-theme", plantumlTheme] else [])
    .ok ⟨javaPath, args, content, trimmed, tagsAdded, hashKey⟩

/-- The SVG cache: SHA-256 key (modelled by its field list) to SVG. -/
abbrev Cache := LruCache (List String) String

/-! ## `renderToSvg` / `renderToSvgAsync` (src/unnamed/part_003)

The interaction with the spawned Java process is replaced by an
explicit outcome value: which completion event settled the promise.
The model returns the settled string, the updated cache, and whether a
child process was spawned / killed. -/

/-- How an async render attempt completes, mirroring the handlers wired
in `renderToSvgAsync`: spawn `error` event, the 15 s timeout timer, the
abort listener, or the `close` event with an exit code and the captured
stdout/stderr. -/
inductive LocalOutcome where
  | procError (msg : String)
  | timeout
  | abortedDuring
  | closeExit (code : Option Int) (stdoutText stderrText : String)

/-- Result of one modelled render call. -/
structure RenderOutput where
  value : String
  cache : Cache
  spawned : Bool
  killed : Bool

/-- `renderToSvgAsync` (src/unnamed/part_003, lines 153-224):
prepare-context error, then cache lookup (with LRU promotion), then the
already-aborted check, then the spawned process settling with
`outcome`.  Only the `close` event with exit code 0 writes the cache. -/
def renderToSvgAsyncModel (c : Cache) (pumlContent : String) (config : Config)
    (abortedAtStart : Bool) (outcome : LocalOutcome) : RenderOutput :=
  match prepareRenderContext pumlContent config with
  | .error e => ⟨e, c, false, false⟩
  | .ok ctx =>
    match c.get ctx.hashKey with
    | (some v, c1) => ⟨v, c1, false, false⟩
    | (none, c1) =>
      if abortedAtStart then ⟨"", c1, false, false⟩
      else
        match outcome with
        | .procError msg =>
          ⟨errorHtml ("PlantUML execution error: " ++ escapeHtml msg), c1, true, false⟩
        | .timeout =>
          ⟨errorHtml "PlantUML execution error: Timed out", c1, true, true⟩
        | .abortedDuring => ⟨"", c1, true, true⟩
        | .closeExit code out err =>
          if code = some 0 then ⟨out, c1.set ctx.hashKey out, true, false⟩
          else
            ⟨buildErrorMessage err ctx.trimmed (if ctx.tagsAdded then 1 else 0)
              (code.getD (-1)), c1, true, false⟩

/-- The result record of `spawnJavaSync` as consumed by `renderToSvg`:
a spawn/timeout `error`, the exit `status` (`null` on signal kill), and
the captured streams. -/
structure SyncSpawnResult where
  procError : Option String
  status : Option Int
  stdoutText : String
  stderrText : String

/-- `renderToSvg` (src/unnamed/part_003, lines 108-139), the
synchronous variant: same branches, no cancellation signal. -/
def renderToSvgModel (c : Cache) (pumlContent : String) (config : Config)
    (res : SyncSpawnResult) : RenderOutput :=
  match prepareRenderContext pumlContent config with
  | .error e => ⟨e, c, false, false⟩
  | .ok ctx =>
    match c.get ctx.hashKey with
    | (some v, c1) => ⟨v, c1, false, false⟩
    | (none, c1) =>
      match res.procError with
      | some msg => ⟨errorHtml ("PlantUML execution error: " ++ escapeHtml msg), c1, true, false⟩
      | none =>
        if res.status ≠ some 0 then
          ⟨buildErrorMessage res.stderrText ctx.trimmed (if ctx.tagsAdded then 1 else 0)
            (res.status.getD (-1)), c1, true, false⟩
        else ⟨res.stdoutText, c1.set ctx.hashKey res.stdoutText, true, false⟩

/-! ## `renderToSvgServer` (src/src/plantuml.ts, second `plantuml-server`
module, lines 824-887) -/

/-- Server settings (`ServerConfig`): base URL and optional theme. -/
structure ServerConfig where
  serverUrl : String
  plantumlTheme : Option String

/-- `injectThemeDirective`: insert `!theme <theme>` after the first
line matching `^(@start\w+.*)$` (multiline, non-global: first match
only); no match leaves the content unchanged. -/
def isWordChar (c : Char) : Bool :=
  c.isAlphanum || c = '_'

/-- Is this line matched by `^@start\w+.*$`? -/
def isStartDirectiveLine (l : List Char) : Bool :=
  ("@start".data).isPrefixOf l &&
    (match l.drop 6 with
     | c :: _ => isWordChar c
     | [] => false)

/-- Insert the `!theme` directive after the first matching line. -/
def injectLines (theme : String) : List (List Char) → List (List Char)
  | [] => []
  | l :: rest =>
    if isStartDirectiveLine l then l :: ("!theme " ++ theme).data :: rest
    else l :: injectLines theme rest

/-- `injectThemeDirective` (src/src/plantuml.ts, lines 923-925). -/
def injectThemeDirective (content theme : String) : String :=
  String.intercalate "\n" ((injectLines theme (splitNl content.data)).map String.mk)

/-- `cacheKey` (src/src/plantuml.ts, lines 809-811):
`computeHash(content, serverUrl, plantumlTheme || "default")`, modelled
as its field list. -/
def serverCacheKey (content : String) (config : ServerConfig) : List String :=
  [content, config.serverUrl,
   match config.plantumlTheme with
   | some t => if t = "" then "default" else t
   | none => "default"]

/-- How the `fetch` of `renderToSvgServer` completes: either the
promise rejects (`AbortError` from the timeout controller or the
external signal, or a connection error), or a response arrives with its
`ok` flag, status, status text and body. -/
inductive ServerOutcome where
  | fetchThrow (errName errMsg : String)
  | response (ok : Bool) (status : Nat) (statusText : String) (body : String)

/-- Result of one modelled server render. -/
structure ServerOutput where
  value : String
  cache : Cache
  requestAborted : Bool

/-- The cache key `renderToSvgServer` computes for a raw block: trim,
wrap, inject the theme directive when a non-default theme is set
(`config.plantumlTheme && config.plantumlTheme !== "default"`), then
`cacheKey(themedContent, config)`. -/
def serverRequestKey (pumlContent : String) (config : ServerConfig) : List String :=
  let trimmed := jsTrim pumlContent
  let content := ensureStartEndTags trimmed
  let themedContent :=
    match config.plantumlTheme with
    | some t => if t ≠ "" ∧ t ≠ "default" then injectThemeDirective content t else content
    | none => content
  serverCacheKey themedContent config

/-- `renderToSvgServer`: trim, wrap, inject the theme, look up the
cache, bail out on an already-aborted signal, then settle according to
the fetch outcome.  `sigAbortedAtCatch` is `signal?.aborted` as read in
the catch block (true when the external signal - whose abort listener
calls `controller.abort()` - caused the `AbortError`).  Only a
successful response whose body contains vector markup is cached. -/
def renderToSvgServerModel (c : Cache) (pumlContent : String) (config : ServerConfig)
    (abortedAtStart : Bool) (outcome : ServerOutcome) (sigAbortedAtCatch : Bool) :
    ServerOutput :=
  let hash := serverRequestKey pumlContent config
  match c.get hash with
  | (some v, c1) => ⟨v, c1, false⟩
  | (none, c1) =>
    if abortedAtStart then ⟨"", c1, false⟩
    else
      match outcome with
      | .response ok status statusText body =>
        if !ok then
          ⟨errorHtml ("PlantUML server error: HTTP " ++ toString status ++ " "
            ++ escapeHtml statusText), c1, false⟩
        else if !(containsSubstr body "<svg" || containsSubstr body "<?xml") then
          ⟨errorHtml "PlantUML server returned unexpected response", c1, false⟩
        else ⟨body, c1.set hash body, false⟩
      | .fetchThrow errName errMsg =>
        if errName = "AbortError" then
          if sigAbortedAtCatch then ⟨"", c1, true⟩
          else ⟨errorHtml "PlantUML server request timed out", c1, false⟩
        else ⟨errorHtml ("PlantUML server connection error: " ++ escapeHtml errMsg), c1, false⟩

/-! ## `batchRender` (src/src/utils.ts, lines 181-200)

```ts
export async function batchRender(blocks, concurrency, renderFn, signal?) {
    const results = new Map<string, string>();
    const uniqueBlocks = [...new Set(blocks)];
    for (let i = 0; i < uniqueBlocks.length; i += concurrency) {
        if (signal?.aborted) break;
        const batch = uniqueBlocks.slice(i, i + concurrency);
        const svgs = await Promise.all(batch.map(content =>
            signal?.aborted ? Promise.resolve("") : renderFn(content, signal)));
        for (let j = 0; j < batch.length; j++)
            results.set(batch[j].trim(), svgs[j]);
    }
    return results;
}
```

The model runs with no abort (the claims concern the deduplication and
invocation behaviour) and takes the per-block render function as a pure
function; `calls` records, in order, every argument `renderFn` was
invoked on. -/

/-- `[...new Set(blocks)]`: first occurrences, in insertion order. -/
def jsSetDedupGo (seen : List String) : List String → List String
  | [] => []
  | x :: xs =>
    if seen.contains x then jsSetDedupGo seen xs
    else x :: jsSetDedupGo (x :: seen) xs

/-- `[...new Set(blocks)]`. -/
def jsSetDedup (blocks : List String) : List String :=
  jsSetDedupGo [] blocks

/-- Split a list into consecutive chunks (`slice(i, i + n)` with
`i += n`).  `n = 0` never occurs in the source (the concurrency limits
are 3 and 5); the `0` case is a placeholder for totality. -/
def chunksOfGo : Nat → Nat → List String → List (List String)
  | _, _, [] => []
  | 0, _, l => [l]
  | fuel + 1, n, l => l.take n :: chunksOfGo fuel n (l.drop n)

/-- Split a list into consecutive chunks of size `n`.  `n = 0` never
occurs in the source (the concurrency limits are 3 and 5); the fuel -
at least the list length - makes the recursion structural. -/
def chunksOf (n : Nat) (l : List String) : List (List String) :=
  chunksOfGo l.length n l

/-- Result of a modelled `batchRender`: the result map (keyed by the
trimmed block) and the invocation log of `renderFn`. -/
structure BatchOut where
  results : List (String × String)
  calls : List String

/-- `batchRender`, with `renderFn` pure and no cancellation. -/
def batchRenderModel (blocks : List String) (concurrency : Nat)
    (renderFn : String → String) : BatchOut :=
  let uniqueBlocks := jsSetDedup blocks
  (chunksOf concurrency uniqueBlocks).foldl
    (fun acc batch =>
      ⟨batch.foldl (fun r b => jsSet r (jsTrim b) (renderFn b)) acc.results,
       acc.calls ++ batch⟩)
    ⟨[], []⟩

/-! ## `renderBatchLocal` (src/unnamed/part_003, lines 368-449) -/

/-- `splitSvgOutput` (src/unnamed/part_003, lines 235-237):
`stdout.split(/(?=<\?xml\s)/)` - split before every occurrence of
`<?xml` followed by a whitespace character (a zero-width match at
position 0 produces no leading empty segment) - then drop segments
blank after trimming. -/
def isXmlBoundary (cs : List Char) : Bool :=
  match cs with
  | '<' :: '?' :: 'x' :: 'm' :: 'l' :: c :: _ => isJsWhitespace c
  | _ => false

/-- The lookahead split: `acc` is the current segment, reversed. -/
def splitXmlGo : List Char → List Char → List (List Char)
  | acc, [] => [acc.reverse]
  | acc, c :: rest =>
    if acc ≠ [] ∧ isXmlBoundary (c :: rest) then
      acc.reverse :: splitXmlGo [c] rest
    else splitXmlGo (c :: acc) rest

/-- `splitSvgOutput`. -/
def splitSvgOutput (stdout : String) : List String :=
  ((splitXmlGo [] stdout.data).map String.mk).filter (fun p => jsTrim p ≠ "")

/-- `isErrorSvg` (src/unnamed/part_003, lines 250-252): the heuristic
`[From string (line N)]` regex test or a `Syntax Error` substring. -/
def errorMarkerAt (cs : List Char) : Bool :=
  match cs with
  | '[' :: 'F' :: 'r' :: 'o' :: 'm' :: ' ' :: 's' :: 't' :: 'r' :: 'i' :: 'n' :: 'g' ::
      ' ' :: '(' :: 'l' :: 'i' :: 'n' :: 'e' :: ' ' :: rest =>
    let ds := rest.takeWhile (fun c => decide ('0' ≤ c ∧ c ≤ '9'))
    ds ≠ [] && (")]".data).isPrefixOf (rest.drop ds.length)
  | _ => false

/-- Scan for the error-diagram marker anywhere in the SVG. -/
def hasErrorMarker : List Char → Bool
  | [] => false
  | c :: rest => errorMarkerAt (c :: rest) || hasErrorMarker rest

/-- `isErrorSvg`. -/
def isErrorSvg (svg : String) : Bool :=
  hasErrorMarker svg.data || containsSubstr svg "Syntax Error"

/-- One deduplicated, uncached block of a batch run, as collected by
`renderBatchLocal`. -/
structure UncachedBlock where
  trimmed : String
  content : String
  hashKey : List String

/-- The block-level cache key of the local path: the fields of the
`computeHash` call in `renderBatchLocal` (line 393) for a raw block;
identical to the key `prepareRenderContext` computes for the same
block. -/
def blockHashKey (config : Config) (raw : String) : List String :=
  let jarPath := config.jarPath
  let javaPath := if config.javaPath = "" then "java" else config.javaPath
  let dotPath := if config.dotPath = "" then "dot" else config.dotPath
  let plantumlTheme := if config.plantumlTheme = "" then "default" else config.plantumlTheme
  [ensureStartEndTags (jsTrim raw), jarPath,
   resolveJavaCommand javaPath config.javaHomeEnv, dotPath, plantumlTheme]

/-- The dedup-and-partition loop of `renderBatchLocal` (lines 384-400):
skip repeated trimmed blocks, satisfy what the cache holds, collect the
rest as `UncachedBlock`s. -/
def dedupePartition (config : Config) (seen : List String)
    (results : List (String × String)) (cache : Cache)
    (uncached : List UncachedBlock) :
    List String → List (String × String) × List UncachedBlock × Cache
  | [] => (results, uncached, cache)
  | raw :: rest =>
    let trimmed := jsTrim raw
    if seen.contains trimmed then
      dedupePartition config seen results cache uncached rest
    else
      let content := ensureStartEndTags trimmed
      let hash := blockHashKey config raw
      match cache.get hash with
      | (some v, cache1) =>
        dedupePartition config (trimmed :: seen) (jsSet results trimmed v) cache1 uncached rest
      | (none, cache1) =>
        dedupePartition config (trimmed :: seen) results cache1
          (uncached ++ [⟨trimmed, content, hash⟩]) rest

/-- The per-block render oracle: how the individual `renderToSvgAsync`
spawned for a given trimmed block completes.  Determinism of the
backend is modelled by the outcome being a function of the content. -/
abbrev RenderOracle := String → LocalOutcome

/-- `fallbackToIndividual` (src/unnamed/part_003, lines 339-351): render
each uncached block sequentially through `renderToSvgAsync`. -/
def fallbackToIndividualModel (cache : Cache) (uncached : List UncachedBlock)
    (config : Config) (oracle : RenderOracle) (results : List (String × String)) :
    List (String × String) × Cache :=
  match uncached with
  | [] => (results, cache)
  | b :: rest =>
    let out := renderToSvgAsyncModel cache b.trimmed config false (oracle b.trimmed)
    fallbackToIndividualModel out.cache rest config oracle (jsSet results b.trimmed out.value)

/-- The first pass over a matching batch output (lines 428-437): cache
and record every non-error SVG, collect the error blocks in order. -/
def cacheBatchResults (cache : Cache) (results : List (String × String))
    (errs : List UncachedBlock) :
    List (UncachedBlock × String) → List (String × String) × Cache × List UncachedBlock
  | [] => (results, cache, errs)
  | (b, svg) :: rest =>
    if isErrorSvg svg then cacheBatchResults cache results (errs ++ [b]) rest
    else cacheBatchResults (cache.set b.hashKey svg) (jsSet results b.trimmed svg) errs rest

/-- The error re-render loop (lines 438-442): render each error block
individually (same loop shape as `fallbackToIndividual`, but keeping
the already-filled successes). -/
def rerenderErrorBlocks (cache : Cache) (errs : List UncachedBlock)
    (config : Config) (oracle : RenderOracle) (results : List (String × String)) :
    List (String × String) × Cache :=
  match errs with
  | [] => (results, cache)
  | b :: rest =>
    let out := renderToSvgAsyncModel cache b.trimmed config false (oracle b.trimmed)
    rerenderErrorBlocks out.cache rest config oracle (jsSet results b.trimmed out.value)

/-- How the single batch JVM completes (`spawnBatchJvm`): a rejected
promise (spawn error, timeout, abort, or non-zero exit with blank
stdout), or resolved stdout. -/
inductive BatchJvmOutcome where
  | failed
  | output (stdoutText : String)

/-- `renderBatchLocal` (src/unnamed/part_003, lines 368-449), run with
a non-aborted signal: missing jar short-circuits; otherwise dedup and
partition, send the uncached blocks to one JVM, and on a rejected batch
or an output count mismatch fall back to individual rendering.  On a
matching count, non-error SVGs are cached and error SVGs re-rendered
individually. -/
def renderBatchLocalModel (cache : Cache) (blocks : List String) (config : Config)
    (batchOutcome : BatchJvmOutcome) (oracle : RenderOracle) :
    List (String × String) × Cache :=
  if config.jarPath = "" then
    (blocks.foldl (fun r b => jsSet r (jsTrim b) jarMissingError) [], cache)
  else
    match dedupePartition config [] [] cache [] blocks with
    | (results, uncached, cache1) =>
      if uncached.isEmpty then (results, cache1)
      else
        match batchOutcome with
        | .failed => fallbackToIndividualModel cache1 uncached config oracle results
        | .output stdout =>
          let svgs := splitSvgOutput stdout
          if svgs.length ≠ uncached.length then
            fallbackToIndividualModel cache1 uncached config oracle results
          else
            match cacheBatchResults cache1 results [] (uncached.zip svgs) with
            | (results1, cache2, errs) =>
              rerenderErrorBlocks cache2 errs config oracle results1

/-- `renderAllLocal` (src/unnamed/part_003, lines 463-465). -/
def renderAllLocal (cache : Cache) (blocks : List String) (config : Config)
    (batchOutcome : BatchJvmOutcome) (oracle : RenderOracle) :
    List (String × String) × Cache :=
  renderBatchLocalModel cache blocks config batchOutcome oracle

/-- Insert a list of entries one by one (`set` in order). -/
def LruCache.insertAll (c : LruCache K V) (kvs : List (K × V)) : LruCache K V :=
  kvs.foldl (fun c p => c.set p.1 p.2) c

/-! ## Lemmas about the `Map` model -/

theorem jsKeys_nil : jsKeys ([] : List (K × V)) = [] := rfl

theorem jsKeys_cons (p : K × V) (m : List (K × V)) :
    jsKeys (p :: m) = p.1 :: jsKeys m := rfl

theorem jsKeys_append (m1 m2 : List (K × V)) :
    jsKeys (m1 ++ m2) = jsKeys m1 ++ jsKeys m2 := by
  simp [jsKeys]

theorem not_mem_jsKeys_cons {p : K × V} {m : List (K × V)} {k : K} :
    k ∉ jsKeys (p :: m) ↔ k ≠ p.1 ∧ k ∉ jsKeys m := by
  rw [jsKeys_cons, List.mem_cons]
  tauto

theorem jsHas_iff {m : List (K × V)} {k : K} :
    jsHas m k = true ↔ k ∈ jsKeys m := by
  induction m with
  | nil => simp [jsHas, jsKeys]
  | cons p m ih =>
    rw [jsKeys_cons, List.mem_cons]
    simp only [jsHas, List.any_cons] at ih ⊢
    by_cases hpk : p.1 = k
    · simp [hpk]
    · simp only [Bool.or_eq_true, decide_eq_true_eq]
      rw [ih]
      constructor
      · rintro (h | h)
        · exact absurd h hpk
        · exact Or.inr h
      · rintro (h | h)
        · exact absurd h.symm hpk
        · exact Or.inr h

theorem jsHas_eq_false {m : List (K × V)} {k : K} :
    jsHas m k = false ↔ k ∉ jsKeys m := by
  rw [← jsHas_iff]
  cases h : jsHas m k <;> simp_all

theorem jsGet?_eq_none {m : List (K × V)} {k : K} :
    jsGet? m k = none ↔ k ∉ jsKeys m := by
  induction m with
  | nil => simp [jsGet?, jsKeys]
  | cons p m ih =>
    rw [not_mem_jsKeys_cons]
    by_cases hpk : p.1 = k
    · have hd : (decide (p.1 = k)) = true := by simpa using hpk
      simp only [jsGet?, List.find?, hd]
      simp [hpk]
    · have hd : (decide (p.1 = k)) = false := by
        simp
        exact hpk
      simp only [jsGet?, List.find?, hd] at ih ⊢
      rw [ih]
      constructor
      · intro h
        exact ⟨fun he => hpk he.symm, h⟩
      · intro h
        exact h.2

theorem jsGet?_decomp {l1 l2 : List (K × V)} {k : K} {v : V}
    (h : k ∉ jsKeys l1) : jsGet? (l1 ++ (k, v) :: l2) k = some v := by
  induction l1 with
  | nil => simp [jsGet?, List.find?]
  | cons p l1 ih =>
    rcases not_mem_jsKeys_cons.mp h with ⟨hne, h2⟩
    have hd : (decide (p.1 = k)) = false := by
      simp
      exact fun he => hne he.symm
    have := ih h2
    simp only [jsGet?, List.cons_append, List.find?, hd] at this ⊢
    exact this

theorem jsDelete_decomp {l1 l2 : List (K × V)} {k : K} {v : V}
    (h : k ∉ jsKeys l1) : jsDelete (l1 ++ (k, v) :: l2) k = l1 ++ l2 := by
  induction l1 with
  | nil => simp [jsDelete, List.eraseP_cons]
  | cons p l1 ih =>
    rcases not_mem_jsKeys_cons.mp h with ⟨hne, h2⟩
    have hd : (decide (p.1 = k)) = false := by
      simp
      exact fun he => hne he.symm
    have := ih h2
    simp only [jsDelete, List.cons_append, List.eraseP_cons, hd, cond_false] at this ⊢
    rw [this]

theorem jsSet_of_not_mem {m : List (K × V)} {k : K} (v : V)
    (h : k ∉ jsKeys m) : jsSet m k v = m ++ [(k, v)] := by
  rw [jsSet, jsHas_eq_false.mpr h]
  simp

/-- First-occurrence decomposition of a present key. -/
theorem exists_key_decomp {m : List (K × V)} {k : K} (h : k ∈ jsKeys m) :
    ∃ v l1 l2, m = l1 ++ (k, v) :: l2 ∧ k ∉ jsKeys l1 := by
  induction m with
  | nil => simp [jsKeys] at h
  | cons p m ih =>
    by_cases hpk : p.1 = k
    · refine ⟨p.2, [], m, ?_, by simp [jsKeys]⟩
      simp [← hpk]
    · have hm : k ∈ jsKeys m := by
        rw [jsKeys_cons, List.mem_cons] at h
        rcases h with h1 | h1
        · exact absurd h1.symm hpk
        · exact h1
      rcases ih hm with ⟨v, l1, l2, hdec, hni⟩
      refine ⟨v, p :: l1, l2, by simp [hdec], ?_⟩
      rw [not_mem_jsKeys_cons]
      exact ⟨fun he => hpk he.symm, hni⟩

/-! ## Lemmas about `LruCache` -/

namespace LruCache

theorem get_miss (c : LruCache K V) (k : K) (h : c.lookup k = none) :
    c.get k = (none, c) := by
  simp only [get, lookup] at h ⊢
  rw [h]

theorem get_hit_decomp (c : LruCache K V) {k : K} {v : V} {l1 l2 : List (K × V)}
    (hm : c.map = l1 ++ (k, v) :: l2) (h1 : k ∉ jsKeys l1) (h2 : k ∉ jsKeys l2) :
    c.get k = (some v, ⟨c.maxSize, (l1 ++ l2) ++ [(k, v)]⟩) := by
  have hni : k ∉ jsKeys (l1 ++ l2) := by
    rw [jsKeys_append, List.mem_append]
    push_neg
    exact ⟨h1, h2⟩
  simp only [get, hm]
  rw [jsGet?_decomp h1, jsDelete_decomp h1]
  simp [jsSet_of_not_mem v hni]

theorem set_fresh_notFull (c : LruCache K V) {k : K} (v : V)
    (hfresh : k ∉ jsKeys c.map) (hlen : c.map.length < c.maxSize) :
    c.set k v = ⟨c.maxSize, c.map ++ [(k, v)]⟩ := by
  simp only [set]
  rw [jsHas_eq_false.mpr hfresh]
  simp only [Bool.false_eq_true, if_false]
  rw [if_neg (by omega)]
  rw [jsSet_of_not_mem v hfresh]

theorem set_fresh_full (c : LruCache K V) {k : K} (v : V)
    (hfresh : k ∉ jsKeys c.map) (hlen : c.map.length = c.maxSize)
    (hpos : 0 < c.maxSize) :
    c.set k v = ⟨c.maxSize, c.map.tail ++ [(k, v)]⟩ := by
  obtain ⟨p, t, hm⟩ : ∃ p t, c.map = p :: t := by
    cases hcm : c.map with
    | nil =>
      rw [hcm] at hlen
      simp at hlen
      omega
    | cons p t => exact ⟨p, t, rfl⟩
  have hfresh2 : k ∉ jsKeys t := (not_mem_jsKeys_cons.mp (hm ▸ hfresh)).2
  simp only [set]
  rw [jsHas_eq_false.mpr hfresh]
  simp only [Bool.false_eq_true, if_false]
  rw [if_pos (by omega)]
  rw [hm]
  simp only [List.head?]
  rw [show jsDelete (p :: t) p.1 = t by simp [jsDelete, List.eraseP_cons]]
  rw [jsSet_of_not_mem v hfresh2]
  simp

theorem insertAll_fresh (c : LruCache K V) (kvs : List (K × V))
    (hnd : (jsKeys kvs).Nodup)
    (hdisj : ∀ k ∈ jsKeys kvs, k ∉ jsKeys c.map)
    (hlen : c.map.length + kvs.length ≤ c.maxSize) :
    c.insertAll kvs = ⟨c.maxSize, c.map ++ kvs⟩ := by
  induction kvs generalizing c with
  | nil => simp [insertAll]
  | cons p kvs ih =>
    rw [insertAll, List.foldl_cons]
    have hfresh : p.1 ∉ jsKeys c.map := hdisj p.1 (by rw [jsKeys_cons]; exact List.mem_cons_self _ _)
    have hset : c.set p.1 p.2 = ⟨c.maxSize, c.map ++ [p]⟩ := by
      have := set_fresh_notFull c p.2 hfresh (by simp at hlen ⊢; omega)
      simpa using this
    rw [hset]
    rw [jsKeys_cons] at hnd hdisj
    have hres := ih ⟨c.maxSize, c.map ++ [p]⟩ hnd.of_cons ?disj ?len
    case disj =>
      intro k hk
      simp only [jsKeys_append, List.mem_append]
      push_neg
      refine ⟨hdisj k (List.mem_cons_of_mem _ hk), ?_⟩
      have : k ≠ p.1 := by
        intro he
        exact (List.nodup_cons.mp hnd).1 (he ▸ hk)
      simpa [jsKeys] using this
    case len =>
      simp at hlen ⊢
      omega
    rw [insertAll] at hres
    rw [hres]
    simp

end LruCache

/-! ## Claim C4 -/

/-- C4: for the LRU cache with capacity 200, filling it with 200
distinct keys keeps them in insertion order; `get` on the present key
`ka` returns its value and promotes the entry to most-recently-used
(last) position; `set` of a 201st distinct key when the cache is full
evicts exactly the single least-recently-used entry (`ka`, the oldest);
and performing the `get` on `ka` before that final insertion protects
`ka` from the eviction (the second-oldest entry is evicted instead). -/
theorem claim_C4_lru_eviction (ka va kNew vNew : String) (t : List (String × String))
    (hnd : (jsKeys ((ka, va) :: t)).Nodup)
    (hlen : t.length = 199)
    (hNew : kNew ∉ jsKeys ((ka, va) :: t)) :
    ((LruCache.empty String String 200).insertAll ((ka, va) :: t)).map = (ka, va) :: t ∧
    ((LruCache.empty String String 200).insertAll ((ka, va) :: t)).get ka
      = (some va, ⟨200, t ++ [(ka, va)]⟩) ∧
    (((LruCache.empty String String 200).insertAll ((ka, va) :: t)).set kNew vNew).map
      = t ++ [(kNew, vNew)] ∧
    (((((LruCache.empty String String 200).insertAll ((ka, va) :: t)).get ka).2).set kNew vNew).map
      = t.tail ++ [(ka, va), (kNew, vNew)] := by
  have hlen200 : ((ka, va) :: t).length = 200 := by simp [hlen]
  have hc0 : (LruCache.empty String String 200).insertAll ((ka, va) :: t)
      = ⟨200, (ka, va) :: t⟩ := by
    have := LruCache.insertAll_fresh (LruCache.empty String String 200) ((ka, va) :: t)
      hnd (by intro k hk; simp [LruCache.empty, jsKeys]) (by simp [LruCache.empty, hlen200])
    simpa [LruCache.empty] using this
  have hka_t : ka ∉ jsKeys t := by
    rw [jsKeys_cons] at hnd
    exact (List.nodup_cons.mp hnd).1
  rcases not_mem_jsKeys_cons.mp hNew with ⟨hNew_ka, hNew_t⟩
  have hget : (⟨200, (ka, va) :: t⟩ : LruCache String String).get ka
      = (some va, ⟨200, t ++ [(ka, va)]⟩) := by
    have := @LruCache.get_hit_decomp String String _
      (⟨200, (ka, va) :: t⟩ : LruCache String String) ka va [] t rfl
      (by simp [jsKeys]) hka_t
    simpa using this
  have hset : ((⟨200, (ka, va) :: t⟩ : LruCache String String).set kNew vNew).map
      = t ++ [(kNew, vNew)] := by
    have := LruCache.set_fresh_full (⟨200, (ka, va) :: t⟩ : LruCache String String)
      vNew hNew (by simpa using hlen200) (by norm_num)
    rw [this]
    simp
  obtain ⟨a, t2, ht⟩ : ∃ a t2, t = a :: t2 := by
    cases hcm : t with
    | nil =>
      rw [hcm] at hlen
      simp at hlen
    | cons a t2 => exact ⟨a, t2, rfl⟩
  have hfresh2 : kNew ∉ jsKeys (t ++ [(ka, va)]) := by
    rw [jsKeys_append, List.mem_append]
    push_neg
    refine ⟨hNew_t, ?_⟩
    simpa [jsKeys] using hNew_ka
  have hprotect : ((⟨200, t ++ [(ka, va)]⟩ : LruCache String String).set kNew vNew).map
      = t.tail ++ [(ka, va), (kNew, vNew)] := by
    have := LruCache.set_fresh_full (⟨200, t ++ [(ka, va)]⟩ : LruCache String String)
      vNew hfresh2 (by simp [hlen]) (by norm_num)
    rw [this]
    rw [ht]
    simp
  refine ⟨hc0 ▸ rfl, ?_, ?_, ?_⟩
  · rw [hc0]
    exact hget
  · rw [hc0]
    exact hset
  · rw [hc0, hget]
    exact hprotect

/-- Pairwise-distinct string keys for the capacity-200 witness. -/
def natKey (n : Nat) : String :=
  String.mk (List.replicate n 'a')

theorem natKey_injective : Function.Injective natKey := by
  intro m n h
  have := congrArg String.length h
  simpa [natKey, String.length] using this

theorem natKey_keys_eq :
    jsKeys ((natKey 0, "v") :: (List.range 199).map (fun n => (natKey (n + 1), "v")))
      = (List.range 200).map natKey := by
  have h200 : List.range 200 = 0 :: (List.range 199).map Nat.succ := by
    have := List.range_succ_eq_map 199
    norm_num at this
    exact this
  rw [h200]
  simp [jsKeys, List.map_map, Function.comp]

/-- Witness for C4 at a concrete family of 201 distinct keys. -/
theorem claim_C4_lru_eviction_witness :
    (((LruCache.empty String String 200).insertAll
        ((natKey 0, "v") :: (List.range 199).map (fun n => (natKey (n + 1), "v")))).set
          (natKey 200) "w").map
      = (List.range 199).map (fun n => (natKey (n + 1), "v")) ++ [(natKey 200, "w")] := by
  have hnd : (jsKeys ((natKey 0, "v")
      :: (List.range 199).map (fun n => (natKey (n + 1), "v")))).Nodup := by
    rw [natKey_keys_eq]
    exact List.Nodup.map natKey_injective (List.nodup_range 200)
  have hlen : ((List.range 199).map (fun n => (natKey (n + 1), "v"))).length = 199 := by simp
  have hNew : natKey 200 ∉ jsKeys ((natKey 0, "v")
      :: (List.range 199).map (fun n => (natKey (n + 1), "v"))) := by
    rw [natKey_keys_eq]
    intro hmem
    rcases List.mem_map.mp hmem with ⟨n, hn, he⟩
    have := natKey_injective he
    rw [List.mem_range] at hn
    omega
  exact (claim_C4_lru_eviction (natKey 0) "v" (natKey 200) "w"
    ((List.range 199).map (fun n => (natKey (n + 1), "v"))) hnd hlen hNew).2.2.1

/-! ## Claim C10 -/

/-- C10: `set` on a key already present replaces the value of that key and
moves the entry to the most-recently-used (last) position without
evicting anything: the resulting map is the old map minus the old entry
of the key, plus the fresh entry appended; the number of entries and
the key set are unchanged - even when the cache is at full capacity
(the hypothesis allows `c.map.length = c.maxSize`). -/
theorem claim_C10_lru_set_existing (c : LruCache String String) (k : String) (v : String)
    (hmem : k ∈ jsKeys c.map) (hnd : (jsKeys c.map).Nodup)
    (hcap : c.map.length ≤ c.maxSize) :
    (c.set k v).map = jsDelete c.map k ++ [(k, v)] ∧
    (c.set k v).map.length = c.map.length ∧
    (∀ k2, k2 ∈ jsKeys (c.set k v).map ↔ k2 ∈ jsKeys c.map) := by
  rcases exists_key_decomp hmem with ⟨v0, l1, l2, hdec, hni1⟩
  have hni2 : k ∉ jsKeys l2 := by
    have h2 : (jsKeys l1 ++ k :: jsKeys l2).Nodup := by
      rw [hdec, jsKeys_append, jsKeys_cons] at hnd
      exact hnd
    have := (h2.of_append_right : (k :: jsKeys l2).Nodup)
    exact (List.nodup_cons.mp this).1
  have hlen : c.map.length = l1.length + l2.length + 1 := by
    rw [hdec]
    simp
    omega
  have hdel : jsDelete c.map k = l1 ++ l2 := by
    rw [hdec]
    exact jsDelete_decomp hni1
  have hhas : jsHas c.map k = true := jsHas_iff.mpr hmem
  have hfresh : k ∉ jsKeys (l1 ++ l2) := by
    rw [jsKeys_append, List.mem_append]
    push_neg
    exact ⟨hni1, hni2⟩
  have hmap : (c.set k v).map = (l1 ++ l2) ++ [(k, v)] := by
    simp only [LruCache.set, hhas, if_true]
    rw [hdel]
    rw [if_neg (by simp [List.length_append] at hlen ⊢; omega)]
    rw [jsSet_of_not_mem v hfresh]
  refine ⟨by rw [hmap, hdel], by rw [hmap]; simp; omega, ?_⟩
  intro k2
  rw [hmap, hdec]
  simp only [jsKeys_append, jsKeys_cons, List.mem_append, List.mem_cons, jsKeys]
  simp
  tauto

/-- Witness for C10 on a concrete full cache of capacity 2. -/
theorem claim_C10_lru_set_existing_witness :
    ((⟨2, [("a", "1"), ("b", "2")]⟩ : LruCache String String).set "a" "9").map
      = jsDelete [("a", "1"), ("b", "2")] "a" ++ [("a", "9")] := by
  exact (claim_C10_lru_set_existing ⟨2, [("a", "1"), ("b", "2")]⟩ "a" "9"
    (by simp [jsKeys]) (by simp [jsKeys]) (by simp)).1

/-! ## Claim C3 -/

/-- Counterexample to C3: `computeHash` neither escapes the NUL
separator nor length-prefixes its fields, so the single field
`"a\0b"` (bytes `[97, 0, 98]`) feeds the digest exactly the same byte
stream as the two fields `"a", "b"`; the pre-hash stream is not
injective on arbitrary field tuples. -/
theorem claim_C3_counterexample :
    computeHashStream [[97, 0, 98]] = computeHashStream [[97], [98]] ∧
    [[97, 0, 98]] ≠ ([[97], [98]] : List (List Nat)) := by
  decide

/-- The separator-boundary argument: a NUL-free prefix followed by a
NUL determines the split. -/
theorem sep_split_unique {p q s1 s2 : List Nat} (hp : 0 ∉ p) (hq : 0 ∉ q)
    (h : p ++ 0 :: s1 = q ++ 0 :: s2) : p = q ∧ s1 = s2 := by
  induction p generalizing q with
  | nil =>
    cases q with
    | nil => simpa using h
    | cons b q =>
      simp at h
      rcases h with ⟨hb, _⟩
      exact absurd (by simp [← hb] : (0 : Nat) ∈ b :: q) hq
  | cons a p ih =>
    cases q with
    | nil =>
      simp at h
      rcases h with ⟨ha, _⟩
      exact absurd (by simp [ha] : (0 : Nat) ∈ a :: p) hp
    | cons b q =>
      simp at h
      rcases h with ⟨hab, htail⟩
      have hp2 : (0 : Nat) ∉ p := fun hm => hp (List.mem_cons_of_mem _ hm)
      have hq2 : (0 : Nat) ∉ q := fun hm => hq (List.mem_cons_of_mem _ hm)
      rcases ih hp2 hq2 htail with ⟨hpq, hs⟩
      exact ⟨by rw [hab, hpq], hs⟩

theorem hashStream_flatMap_cons (r : List Nat) (rs : List (List Nat)) :
    (r :: rs).flatMap (fun q => 0 :: q) = 0 :: computeHashStream (r :: rs) := by
  simp [computeHashStream]

/-- C3 (amended): the byte stream fed to the digest by `computeHash` is
injective on non-empty field tuples whose fields do not contain the NUL
separator byte.  (The original claim, injectivity even for fields
containing the separator, fails: see the counterexample.) -/
theorem claim_C3_hash_stream_injective :
    ∀ ps : List (List Nat), ∀ qs : List (List Nat), ps ≠ [] → qs ≠ [] →
      (∀ f ∈ ps, 0 ∉ f) → (∀ f ∈ qs, 0 ∉ f) →
      computeHashStream ps = computeHashStream qs → ps = qs := by
  intro ps
  induction ps with
  | nil =>
    intro qs h
    exact absurd rfl h
  | cons p rest ih =>
    intro qs _ hqs hp hq heq
    cases qs with
    | nil => exact absurd rfl hqs
    | cons q rest2 =>
      have hp0 : (0 : Nat) ∉ p := hp p (List.mem_cons_self _ _)
      have hq0 : (0 : Nat) ∉ q := hq q (List.mem_cons_self _ _)
      simp only [computeHashStream] at heq
      cases rest with
      | nil =>
        cases rest2 with
        | nil =>
          simp at heq
          rw [heq]
        | cons r2 rs2 =>
          rw [hashStream_flatMap_cons] at heq
          simp at heq
          exact absurd (by rw [heq]; simp : (0 : Nat) ∈ p) hp0
      | cons r rs =>
        cases rest2 with
        | nil =>
          rw [hashStream_flatMap_cons] at heq
          simp at heq
          exact absurd (by rw [← heq]; simp : (0 : Nat) ∈ q) hq0
        | cons r2 rs2 =>
          rw [hashStream_flatMap_cons, hashStream_flatMap_cons] at heq
          rcases sep_split_unique hp0 hq0 heq with ⟨hpq, hs⟩
          have := ih (r2 :: rs2) (by simp) (by simp)
            (fun f hf => hp f (List.mem_cons_of_mem _ hf))
            (fun f hf => hq f (List.mem_cons_of_mem _ hf)) hs
          rw [hpq, this]

/-- Witness for the amended C3 at concrete NUL-free fields. -/
theorem claim_C3_hash_stream_injective_witness :
    ([[97], [98]] : List (List Nat)) ≠ [] ∧
    (∀ f ∈ ([[97], [98]] : List (List Nat)), 0 ∉ f) ∧
    ([[97], [98]] : List (List Nat)) = [[97], [98]] :=
  ⟨by decide, by decide,
    claim_C3_hash_stream_injective [[97], [98]] [[97], [98]]
      (by decide) (by decide) (by decide) (by decide) rfl⟩

/-! ## Claim C1 -/

/-- Counterexample to C1: `batchRender` deduplicates with
`new Set(blocks)` on the *raw* block strings, not the trimmed ones.
The blocks `"A"` and `" A"` are identical after trimming, yet the
per-block render function is invoked twice - once per raw variant -
not once. -/
theorem claim_C1_counterexample :
    jsTrim "A" = jsTrim " A" ∧
    (batchRenderModel ["A", " A"] 3 (fun s => s)).calls.length = 2 := by
  decide

theorem chunksOfGo_flatten : ∀ (fuel n : Nat) (l : List String), l.length ≤ fuel → 0 < n →
    (chunksOfGo fuel n l).flatten = l := by
  intro fuel
  induction fuel with
  | zero =>
    intro n l hl _
    cases l with
    | nil => simp [chunksOfGo]
    | cons x xs => simp at hl
  | succ fuel ih =>
    intro n l hl hn
    cases l with
    | nil => simp [chunksOfGo]
    | cons x xs =>
      cases n with
      | zero => omega
      | succ n =>
        simp only [chunksOfGo, List.flatten_cons]
        rw [ih (n + 1) ((x :: xs).drop (n + 1)) (by simp [List.length_drop] at hl ⊢; omega) hn]
        exact List.take_append_drop _ _

theorem batchRender_foldl_calls (renderFn : String → String) :
    ∀ (groups : List (List String)) (acc : BatchOut),
    (groups.foldl (fun acc batch =>
        (⟨batch.foldl (fun r b => jsSet r (jsTrim b) (renderFn b)) acc.results,
          acc.calls ++ batch⟩ : BatchOut)) acc).calls
      = acc.calls ++ groups.flatten := by
  intro groups
  induction groups with
  | nil => simp
  | cons g gs ih =>
    intro acc
    rw [List.foldl_cons, ih]
    simp

/-- C1 (amended): `batchRender` deduplicates by *raw* string identity -
the per-block render function is invoked exactly once per distinct raw
block, in first-occurrence order.  Consequently two blocks that differ
only in surrounding whitespace are distinct raw variants and each
invokes the render function once (their results are stored under the
shared trimmed key), rather than one invocation per trimmed group as
originally claimed. -/
theorem claim_C1_batchRender_raw_dedup (blocks : List String) (concurrency : Nat)
    (renderFn : String → String) (hc : 0 < concurrency) :
    (batchRenderModel blocks concurrency renderFn).calls = jsSetDedup blocks := by
  unfold batchRenderModel
  rw [batchRender_foldl_calls]
  rw [List.nil_append]
  unfold chunksOf
  exact chunksOfGo_flatten _ _ _ (le_refl _) hc

/-- Witness for the amended C1. -/
theorem claim_C1_batchRender_raw_dedup_witness :
    0 < 3 ∧ (batchRenderModel ["A", " A"] 3 (fun s => s)).calls = jsSetDedup ["A", " A"] :=
  ⟨by decide, claim_C1_batchRender_raw_dedup ["A", " A"] 3 (fun s => s) (by decide)⟩

/-! ## Claim C5

Bit-twiddling bridges for bytes (`< 256`) and sextets, settled by
finite enumeration. -/

theorem shr2_eq : ∀ b < 256, b >>> 2 = b / 4 := by decide

theorem shr4_eq : ∀ b < 256, b >>> 4 = b / 16 := by decide

theorem shr6_eq : ∀ b < 256, b >>> 6 = b / 64 := by decide

theorem and3_eq : ∀ b < 256, b &&& 3 = b % 4 := by decide

theorem and15_eq : ∀ b < 256, b &&& 15 = b % 16 := by decide

theorem and63_eq : ∀ b < 256, b &&& 63 = b % 64 := by decide

theorem shl4_or_eq : ∀ u < 4, ∀ v < 16, (u <<< 4) ||| v = 16 * u + v := by decide

theorem shl2_or_eq : ∀ u < 16, ∀ v < 4, (u <<< 2) ||| v = 4 * u + v := by decide

theorem alphaIndex_alphaChar : ∀ n < 64, alphaIndex (alphaChar n) = n := by decide

/-- The four sextet values `encode3bytes` packs, in div/mod form. -/
theorem encode3_sextets (b1 b2 b3 : Nat) (h1 : b1 < 256) (h2 : b2 < 256) (h3 : b3 < 256) :
    (encode3bytes b1 b2 b3).map alphaIndex
      = [b1 / 4, 16 * (b1 % 4) + b2 / 16, 4 * (b2 % 16) + b3 / 64, b3 % 64] := by
  have e1 : b1 >>> 2 = b1 / 4 := shr2_eq b1 h1
  have e2 : ((b1 &&& 0x3) <<< 4) ||| (b2 >>> 4) = 16 * (b1 % 4) + b2 / 16 := by
    rw [and3_eq b1 h1, shr4_eq b2 h2]
    exact shl4_or_eq _ (by omega) _ (by omega)
  have e3 : ((b2 &&& 0xF) <<< 2) ||| (b3 >>> 6) = 4 * (b2 % 16) + b3 / 64 := by
    rw [and15_eq b2 h2, shr6_eq b3 h3]
    exact shl2_or_eq _ (by omega) _ (by omega)
  have e4 : b3 &&& 0x3F = b3 % 64 := and63_eq b3 h3
  simp only [encode3bytes, List.map_cons, List.map_nil, e1, e2, e3, e4]
  rw [alphaIndex_alphaChar _ (by omega), alphaIndex_alphaChar _ (by omega),
      alphaIndex_alphaChar _ (by omega), alphaIndex_alphaChar _ (by omega)]

/-- Decoding one encoded 3-byte chunk recovers the bytes and passes the
remainder through. -/
theorem decodeSextets_chunk (b1 b2 b3 : Nat) (rest : List Nat)
    (h1 : b1 < 256) (h2 : b2 < 256) (h3 : b3 < 256) :
    plantumlDecodeSextets ((encode3bytes b1 b2 b3).map alphaIndex ++ rest)
      = [b1, b2, b3] ++ plantumlDecodeSextets rest := by
  rw [encode3_sextets b1 b2 b3 h1 h2 h3]
  simp only [List.cons_append, List.nil_append, plantumlDecodeSextets, decode4]
  simp only [List.cons.injEq, List.append_cancel_right_eq]
  refine ⟨by omega, by omega, by omega, rfl⟩

/-- Round trip of the custom base64 layer: decoding the encoded string
returns the bytes followed by the zero padding of the final group. -/
theorem decode_encode (data : List Nat) (h : ∀ b ∈ data, b < 256) :
    plantumlDecode (plantumlEncode data)
      = data ++ List.replicate ((3 - data.length % 3) % 3) 0 := by
  induction data using plantumlEncodeBytes.induct with
  | case1 => simp [plantumlDecode, plantumlEncode, plantumlEncodeBytes, plantumlDecodeSextets]
  | case2 b1 =>
    have hb1 := h b1 (by simp)
    have : plantumlDecode (plantumlEncode [b1])
        = plantumlDecodeSextets ((encode3bytes b1 0 0).map alphaIndex ++ []) := by
      simp [plantumlDecode, plantumlEncode, plantumlEncodeBytes]
    rw [this, decodeSextets_chunk b1 0 0 [] hb1 (by omega) (by omega)]
    simp [plantumlDecodeSextets, List.replicate]
  | case3 b1 b2 =>
    have hb1 := h b1 (by simp)
    have hb2 := h b2 (by simp)
    have : plantumlDecode (plantumlEncode [b1, b2])
        = plantumlDecodeSextets ((encode3bytes b1 b2 0).map alphaIndex ++ []) := by
      simp [plantumlDecode, plantumlEncode, plantumlEncodeBytes]
    rw [this, decodeSextets_chunk b1 b2 0 [] hb1 hb2 (by omega)]
    simp [plantumlDecodeSextets, List.replicate]
  | case4 b1 b2 b3 rest ih =>
    have hb1 := h b1 (by simp)
    have hb2 := h b2 (by simp)
    have hb3 := h b3 (by simp)
    have hdec : plantumlDecode (plantumlEncode (b1 :: b2 :: b3 :: rest))
        = plantumlDecodeSextets ((encode3bytes b1 b2 b3).map alphaIndex
            ++ (plantumlEncodeBytes rest).map alphaIndex) := by
      simp [plantumlDecode, plantumlEncode, plantumlEncodeBytes]
    rw [hdec, decodeSextets_chunk b1 b2 b3 _ hb1 hb2 hb3]
    rw [show plantumlDecodeSextets ((plantumlEncodeBytes rest).map alphaIndex)
        = plantumlDecode (plantumlEncode rest) from rfl]
    rw [ih (fun b hb => h b (by simp [hb]))]
    simp only [List.cons_append, List.nil_append, List.append_assoc, List.length_cons]
    rw [show (3 - (rest.length + 1 + 1 + 1) % 3) % 3 = (3 - rest.length % 3) % 3 by omega]

/-- C5: the full encoding pipeline is invertible.  `deflate` stands for
the external zlib `deflateRawSync` (level 9) and `inflate` for the
raw-inflate of the decoding side; the hypothesis states the defining
property of a raw DEFLATE stream - the inflater reconstructs the input
from the stream regardless of trailing bytes, because the stream marks
its own final block - which is exactly what makes the zero padding of
the final base64 group harmless.  Then for every input string
(including the empty string, one-byte strings, and deflated lengths not
divisible by 3, all covered by the universally quantified `s`),
decoding the symbols and inflating reproduces the original UTF-8 bytes
exactly. -/
theorem claim_C5_encode_roundtrip (deflate inflate : List Nat → List Nat) (s : String)
    (hbytes : ∀ b ∈ deflate (utf8Bytes s), b < 256)
    (hinv : ∀ extra : List Nat, inflate (deflate (utf8Bytes s) ++ extra) = utf8Bytes s) :
    inflate (plantumlDecode (encodePlantUml deflate s)) = utf8Bytes s := by
  rw [show encodePlantUml deflate s = plantumlEncode (deflate (utf8Bytes s)) from rfl]
  rw [decode_encode _ hbytes]
  exact hinv _

/-- A toy self-terminating codec (length-prefixed) witnessing the
`deflate`/`inflate` hypotheses of C5. -/
def toyDeflate (bs : List Nat) : List Nat :=
  bs.length :: bs

/-- Inverse of `toyDeflate`; ignores trailing bytes. -/
def toyInflate : List Nat → List Nat
  | [] => []
  | n :: rest => rest.take n

/-- Witness for C5 with the toy codec on the one-byte input `"a"`. -/
theorem claim_C5_encode_roundtrip_witness :
    (∀ b ∈ toyDeflate (utf8Bytes "a"), b < 256) ∧
    toyInflate (plantumlDecode (encodePlantUml toyDeflate "a")) = utf8Bytes "a" :=
  ⟨by decide,
    claim_C5_encode_roundtrip toyDeflate toyInflate "a" (by decide)
      (fun extra => by
        have h97 : utf8Bytes "a" = [97] := by decide
        rw [h97]
        simp [toyDeflate, toyInflate])⟩

/-! ## Claims C2, C7, C9: the render paths -/

/-- Every failing completion of the local async/sync render: spawn
error, timeout, abort, or a `close` with non-zero (or null) exit
code. -/
def LocalOutcome.isFailure : LocalOutcome → Prop
  | .procError _ => True
  | .timeout => True
  | .abortedDuring => True
  | .closeExit code _ _ => code ≠ some 0

/-- Every failing completion of the server render: a rejected fetch
(timeout / abort / connection error), a non-success HTTP status, or a
success status whose body is not recognizable vector markup. -/
def ServerOutcome.isFailure : ServerOutcome → Prop
  | .fetchThrow _ _ => True
  | .response ok _ _ body =>
    ok = false ∨ (containsSubstr body "<svg" = false ∧ containsSubstr body "<?xml" = false)

/-- On a non-empty `jarPath`, `prepareRenderContext` succeeds, the
trimmed content is `jsTrim p` and the cache key is `blockHashKey`. -/
theorem prepareRenderContext_ok (p : String) (config : Config)
    (hjar : config.jarPath ≠ "") :
    ∃ ctx, prepareRenderContext p config = .ok ctx ∧
      ctx.trimmed = jsTrim p ∧
      ctx.tagsAdded = !(strIsPrefixOf "@start" (jsTrim p)) ∧
      ctx.hashKey = blockHashKey config p := by
  refine ⟨⟨(if config.javaPath = "" then "java" else config.javaPath),
      ["-Djava.awt.headless=true", "-jar", config.jarPath, "-pipe", "-tsvg",
       "-charset", "UTF-8", "-stdrpt:1"]
        ++ (if (if config.dotPath = "" then "dot" else config.dotPath) ≠ "dot"
            then ["-graphvizdot", (if config.dotPath = "" then "dot" else config.dotPath)]
            else [])
        ++ (if (if config.plantumlTheme = "" then "default" else config.plantumlTheme) ≠ "default"
            then ["-theme", (if config.plantumlTheme = "" then "default" else config.plantumlTheme)]
            else []),
      ensureStartEndTags (jsTrim p), jsTrim p,
      !(strIsPrefixOf "@start" (jsTrim p)), blockHashKey config p⟩, ?_, rfl, rfl, rfl⟩
  simp only [prepareRenderContext, blockHashKey]
  rw [if_neg hjar]

theorem errorHtml_ne_empty (m : String) : errorHtml m ≠ "" := by
  intro h
  have hd : (errorHtml m).data = [] := by rw [h]
  rw [errorHtml] at hd
  rw [String.data_append, String.data_append] at hd
  rcases List.append_eq_nil.mp hd with ⟨hd1, _⟩
  rcases List.append_eq_nil.mp hd1 with ⟨hd2, _⟩
  exact absurd hd2 (by decide)

/-- Every branch of `buildErrorMessage` wraps its message in the error
div. -/
theorem buildErrorMessage_eq_errorHtml (a b : String) (c d : Int) :
    ∃ m, buildErrorMessage a b c d = errorHtml m := by
  simp only [buildErrorMessage]
  cases parseStdrpt a with
  | none => exact ⟨_, rfl⟩
  | some pr =>
    cases pr with
    | mk n label =>
      dsimp only
      by_cases h : (0 : Int) ≤ n - c ∧ n - c < ((splitLines b).length : Int)
      · rw [if_pos h]
        exact ⟨_, rfl⟩
      · rw [if_neg h]
        exact ⟨_, rfl⟩

theorem buildErrorMessage_ne_empty (a b : String) (c d : Int) :
    buildErrorMessage a b c d ≠ "" := by
  obtain ⟨m, hm⟩ := buildErrorMessage_eq_errorHtml a b c d
  rw [hm]
  exact errorHtml_ne_empty m

/-- C2: on a cache miss, every failing completion (process error,
timeout, abort, non-zero exit, non-success HTTP status, success with an
unrecognizable body) leaves the cache exactly as it was - no entry is
created for the fingerprint on any of the three render paths
(`renderToSvgAsync`, `renderToSvg`, `renderToSvgServer`) - so an
immediately following request with the same (block, config) pair misses
the cache again, spawns the backend again, and returns the fresh backend
output instead of a replayed error. -/
theorem claim_C2_no_error_caching (c cs : Cache) (p : String) (config : Config)
    (scfg : ServerConfig) (ab : Bool) (o : LocalOutcome) (so : ServerOutcome)
    (res : SyncSpawnResult) (sab sabc : Bool) (svg stderrText body2 : String)
    (hmiss : c.lookup (blockHashKey config p) = none)
    (hmiss2 : cs.lookup (serverRequestKey p scfg) = none)
    (hjar : config.jarPath ≠ "")
    (ho : o.isFailure)
    (hso : so.isFailure)
    (hres : res.procError ≠ none ∨ res.status ≠ some 0)
    (hbody2 : containsSubstr body2 "<svg" = true) :
    (renderToSvgAsyncModel c p config ab o).cache = c ∧
    (renderToSvgAsyncModel ((renderToSvgAsyncModel c p config ab o).cache) p config false
        (.closeExit (some 0) svg stderrText)).spawned = true ∧
    (renderToSvgAsyncModel ((renderToSvgAsyncModel c p config ab o).cache) p config false
        (.closeExit (some 0) svg stderrText)).value = svg ∧
    (renderToSvgModel c p config res).cache = c ∧
    (renderToSvgServerModel cs p scfg sab so sabc).cache = cs ∧
    (renderToSvgServerModel ((renderToSvgServerModel cs p scfg sab so sabc).cache) p scfg
        false (.response true 200 "OK" body2) false).value = body2 := by
  obtain ⟨ctx0, hprep, htr, hta, hkey⟩ := prepareRenderContext_ok p config hjar
  have hget : c.get (blockHashKey config p) = (none, c) := LruCache.get_miss _ _ hmiss
  have hgets : cs.get (serverRequestKey p scfg) = (none, cs) := LruCache.get_miss _ _ hmiss2
  have hcache : (renderToSvgAsyncModel c p config ab o).cache = c := by
    simp only [renderToSvgAsyncModel, hprep, hkey, hget]
    cases ab with
    | true => simp
    | false =>
      cases o with
      | procError m => simp
      | timeout => simp
      | abortedDuring => simp
      | closeExit code out err =>
        simp only [LocalOutcome.isFailure] at ho
        simp [if_neg ho]
  have hfollow : renderToSvgAsyncModel c p config false (.closeExit (some 0) svg stderrText)
      = ⟨svg, c.set (blockHashKey config p) svg, true, false⟩ := by
    simp only [renderToSvgAsyncModel, hprep, hkey, hget]
    simp
  have hsync : (renderToSvgModel c p config res).cache = c := by
    simp only [renderToSvgModel, hprep, hkey, hget]
    cases hpe : res.procError with
    | some m => simp
    | none =>
      have hst : res.status ≠ some 0 := by
        rcases hres with h | h
        · exact absurd hpe h
        · exact h
      simp [hst]
  have hsrv : (renderToSvgServerModel cs p scfg sab so sabc).cache = cs := by
    simp only [renderToSvgServerModel, hgets]
    cases sab with
    | true => simp
    | false =>
      cases so with
      | fetchThrow nm msg =>
        by_cases hnm : nm = "AbortError"
        · cases sabc <;> simp [hnm]
        · simp [hnm]
      | response ok status st body =>
        simp only [ServerOutcome.isFailure] at hso
        cases ok with
        | false => simp
        | true =>
          rcases hso with h | ⟨hA, hB⟩
          · exact Bool.noConfusion h
          · simp [hA, hB]
  have hsrvFollow : (renderToSvgServerModel cs p scfg false
      (.response true 200 "OK" body2) false).value = body2 := by
    simp only [renderToSvgServerModel, hgets]
    simp [hbody2]
  refine ⟨hcache, ?_, ?_, hsync, hsrv, ?_⟩
  · rw [hcache, hfollow]
  · rw [hcache, hfollow]
  · rw [hsrv]
    exact hsrvFollow

/-- Witness for C2: empty caches, a timeout on the local path, an
abort on the server path, a spawn failure on the sync path. -/
theorem claim_C2_no_error_caching_witness :
    (renderToSvgAsyncModel (LruCache.empty (List String) String 200) "x"
        ⟨"jar", "", "", "", none⟩ false .timeout).cache
      = LruCache.empty (List String) String 200 :=
  (claim_C2_no_error_caching (LruCache.empty (List String) String 200)
    (LruCache.empty (List String) String 200) "x" ⟨"jar", "", "", "", none⟩
    ⟨"http://s", none⟩ false .timeout (.fetchThrow "AbortError" "m")
    ⟨some "ENOENT", none, "", ""⟩ false false "<svg1>" "" "<svg>ok</svg>"
    (by rfl) (by rfl) (by decide) trivial trivial (Or.inl (by simp)) (by decide)).1

/-- C7: a render whose cancellation signal fires before the operation
(on a cache miss) or during it resolves to the explicit empty-string
cancelled value - the model resolves by construction, never rejects -
the killed child / aborted request is recorded, and that empty string
is distinguishable from the timeout and content-error results, which
are non-empty error HTML. -/
theorem claim_C7_cancellation (c cs : Cache) (p : String) (config : Config)
    (scfg : ServerConfig) (o : LocalOutcome) (so : ServerOutcome)
    (code : Option Int) (out err msg : String)
    (hjar : config.jarPath ≠ "")
    (hmiss : c.lookup (blockHashKey config p) = none)
    (hmiss2 : cs.lookup (serverRequestKey p scfg) = none)
    (hcode : code ≠ some 0) :
    (renderToSvgAsyncModel c p config true o).value = "" ∧
    (renderToSvgAsyncModel c p config false .abortedDuring).value = "" ∧
    (renderToSvgAsyncModel c p config false .abortedDuring).killed = true ∧
    (renderToSvgAsyncModel c p config false .timeout).value ≠ "" ∧
    (renderToSvgAsyncModel c p config false (.closeExit code out err)).value ≠ "" ∧
    (renderToSvgServerModel cs p scfg true so false).value = "" ∧
    (renderToSvgServerModel cs p scfg false (.fetchThrow "AbortError" msg) true).value = "" ∧
    (renderToSvgServerModel cs p scfg false (.fetchThrow "AbortError" msg) true).requestAborted
      = true ∧
    (renderToSvgServerModel cs p scfg false (.fetchThrow "AbortError" msg) false).value ≠ "" := by
  obtain ⟨ctx0, hprep, htr, hta, hkey⟩ := prepareRenderContext_ok p config hjar
  have hget : c.get (blockHashKey config p) = (none, c) := LruCache.get_miss _ _ hmiss
  have hgets : cs.get (serverRequestKey p scfg) = (none, cs) := LruCache.get_miss _ _ hmiss2
  refine ⟨?_, ?_, ?_, ?_, ?_, ?_, ?_, ?_, ?_⟩
  · simp only [renderToSvgAsyncModel, hprep, hkey, hget]
    simp
  · simp only [renderToSvgAsyncModel, hprep, hkey, hget]
    simp
  · simp only [renderToSvgAsyncModel, hprep, hkey, hget]
    simp
  · simp only [renderToSvgAsyncModel, hprep, hkey, hget]
    simp
    exact errorHtml_ne_empty _
  · simp only [renderToSvgAsyncModel, hprep, hkey, hget]
    simp [if_neg hcode]
    exact buildErrorMessage_ne_empty _ _ _ _
  · simp only [renderToSvgServerModel, hgets]
    simp
  · simp only [renderToSvgServerModel, hgets]
    simp
  · simp only [renderToSvgServerModel, hgets]
    simp
  · simp only [renderToSvgServerModel, hgets]
    simp
    exact errorHtml_ne_empty _

/-- Witness for C7 at a concrete configuration. -/
theorem claim_C7_cancellation_witness :
    (renderToSvgAsyncModel (LruCache.empty (List String) String 200) "x"
        ⟨"jar", "", "", "", none⟩ true .timeout).value = "" :=
  (claim_C7_cancellation (LruCache.empty (List String) String 200)
    (LruCache.empty (List String) String 200) "x" ⟨"jar", "", "", "", none⟩
    ⟨"http://s", none⟩ .timeout (.fetchThrow "x" "y") (some 1) "" "" "m"
    (by decide) (by rfl) (by rfl) (by decide)).1

/-- C9: when the fingerprint is cached, `renderToSvgAsync` returns the
cached SVG even for an already-aborted signal - the cache lookup
precedes the abort check and no process is spawned - while the
empty-string cancelled value arises for an already-aborted signal only
on a cache miss. -/
theorem claim_C9_cache_hit_beats_abort (c c2 : Cache) (p : String) (config : Config)
    (svg : String) (o o2 : LocalOutcome)
    (hjar : config.jarPath ≠ "")
    (hhit : c.lookup (blockHashKey config p) = some svg)
    (hmiss : c2.lookup (blockHashKey config p) = none) :
    (renderToSvgAsyncModel c p config true o).value = svg ∧
    (renderToSvgAsyncModel c p config true o).spawned = false ∧
    (renderToSvgAsyncModel c2 p config true o2).value = "" := by
  obtain ⟨ctx0, hprep, htr, hta, hkey⟩ := prepareRenderContext_ok p config hjar
  have hget : c.get (blockHashKey config p)
      = (some svg, ⟨c.maxSize, jsSet (jsDelete c.map (blockHashKey config p))
          (blockHashKey config p) svg⟩) := by
    simp only [LruCache.get, LruCache.lookup] at hhit ⊢
    rw [hhit]
  have hget2 : c2.get (blockHashKey config p) = (none, c2) := LruCache.get_miss _ _ hmiss
  refine ⟨?_, ?_, ?_⟩
  · simp only [renderToSvgAsyncModel, hprep, hkey, hget]
  · simp only [renderToSvgAsyncModel, hprep, hkey, hget]
  · simp only [renderToSvgAsyncModel, hprep, hkey, hget2]
    simp

/-- Witness for C9: a one-entry cache holding the fingerprint. -/
theorem claim_C9_cache_hit_beats_abort_witness :
    (renderToSvgAsyncModel
        ⟨200, [(blockHashKey ⟨"jar", "", "", "", none⟩ "x", "<svg/>")]⟩ "x"
        ⟨"jar", "", "", "", none⟩ true .timeout).value = "<svg/>" :=
  (claim_C9_cache_hit_beats_abort
    ⟨200, [(blockHashKey ⟨"jar", "", "", "", none⟩ "x", "<svg/>")]⟩
    (LruCache.empty (List String) String 200) "x" ⟨"jar", "", "", "", none⟩
    "<svg/>" .timeout .timeout (by decide)
    (by simp [LruCache.lookup, jsGet?, List.find?]) (by rfl)).1

/-! ## Claim C8 -/

/-- C8: when stderr carries a structured report with (0-indexed) line
number `n` - i.e. 1-indexed `L = n + 1` - and label, and the wrapper
tag offset is `o ∈ {0, 1}`, then `buildErrorMessage` displays the
1-based line number `n - o + 1 = L - o` in the heading; the per-line
renderer highlights (with the `>>`-marked span) exactly the source line
with 0-based index `(n - o) = L - 1 - o`, rendering every other index
as a plain gutter line; and whenever that adjusted index is in range,
it is among the indices of the rendered source excerpt. -/
theorem claim_C8_error_line_offset (stderr content : String) (o exitCode : Int)
    (n : Int) (label : String)
    (hp : parseStdrpt stderr = some (n, label))
    (ho : o = 0 ∨ o = 1) :
    (∃ rest, buildErrorMessage stderr content o exitCode
      = errorHtml ("<strong>" ++ escapeHtml label ++ " (line " ++ toString (n - o + 1)
          ++ ")</strong>" ++ rest)) ∧
    (∀ pad, renderLine (splitLines content) pad (n - o).toNat (n - o).toNat
      = "<span style=\"display:inline-block;width:100%;background:#fdd;color:#c00;font-weight:bold;\">&gt;&gt; "
          ++ padStartSpaces (toString ((n - o).toNat + 1)) pad ++ " | "
          ++ escapeHtml ((splitLines content).getD (n - o).toNat "") ++ "</span>\n") ∧
    (∀ pad i, i ≠ (n - o).toNat → renderLine (splitLines content) pad (n - o).toNat i
      = "   " ++ padStartSpaces (toString (i + 1)) pad ++ " | "
          ++ escapeHtml ((splitLines content).getD i "") ++ "\n") ∧
    (0 ≤ n - o ∧ n - o < ((splitLines content).length : Int) →
      (n - o).toNat ∈ contextIndices (splitLines content).length (n - o).toNat) := by
  refine ⟨?_, ?_, ?_, ?_⟩
  · simp only [buildErrorMessage, hp]
    by_cases h : (0 : Int) ≤ n - o ∧ n - o < ((splitLines content).length : Int)
    · rw [if_pos h]
      exact ⟨_, by rw [String.append_assoc, String.append_assoc]⟩
    · rw [if_neg h]
      exact ⟨"", by rw [String.append_empty]⟩
  · intro pad
    simp [renderLine]
  · intro pad i hne
    simp only [renderLine]
    rw [if_neg hne]
  · intro h
    rcases h with ⟨h0, hlt⟩
    have hlt2 : (n - o).toNat < (splitLines content).length := by omega
    simp only [contextIndices]
    split
    · refine List.mem_append.mpr (Or.inr ?_)
      refine List.mem_range'.mpr ⟨(n - o).toNat - ((n - o).toNat - 15), ?_, by omega⟩
      have hmin : (n - o).toNat ≤ min ((splitLines content).length - 1) ((n - o).toNat + 2) := by
        omega
      omega
    · rw [List.mem_range]
      have hmin : (n - o).toNat ≤ min ((splitLines content).length - 1) ((n - o).toNat + 2) := by
        omega
      omega

/-- Witness for C8: `lineNumber=3` with offset 1 points at the document
line with 0-based index 1 and the heading says line 2. -/
theorem claim_C8_error_line_offset_witness :
    ∃ rest, buildErrorMessage "lineNumber=3\nlabel=Syntax Error?" "a\nb\nc" 1 200
      = errorHtml ("<strong>" ++ escapeHtml "Syntax Error?" ++ " (line "
          ++ toString ((2 : Int) - 1 + 1) ++ ")</strong>" ++ rest) :=
  (claim_C8_error_line_offset "lineNumber=3\nlabel=Syntax Error?" "a\nb\nc" 1 200 2
    "Syntax Error?" (by decide) (Or.inr rfl)).1

/-! ## Claim C6 -/

/-- The sequential per-block rendering loop (spec side). -/
def renderIndividuallyGo (cache : Cache) (config : Config) (oracle : RenderOracle)
    (results : List (String × String)) : List String → List (String × String) × Cache
  | [] => (results, cache)
  | b :: rest =>
    let out := renderToSvgAsyncModel cache b config false (oracle b)
    renderIndividuallyGo out.cache config oracle (jsSet results b out.value) rest

/-- Modelled from the spec: "running the bounded-concurrency fan-out /
the individual per-block rendering path directly on those N blocks" -
each (deduplicated, trimmed) block is rendered through
`renderToSvgAsync` and the results are collected in a map keyed by
trimmed content, starting from an empty result map. -/
def renderIndividuallySpec (cache : Cache) (trimmedBlocks : List String) (config : Config)
    (oracle : RenderOracle) : List (String × String) × Cache :=
  renderIndividuallyGo cache config oracle [] trimmedBlocks

theorem fallback_eq_individual (config : Config) (oracle : RenderOracle) :
    ∀ (ub : List UncachedBlock) (cache : Cache) (results : List (String × String)),
      fallbackToIndividualModel cache ub config oracle results
        = renderIndividuallyGo cache config oracle results (ub.map (fun b => b.trimmed)) := by
  intro ub
  induction ub with
  | nil =>
    intro cache results
    rfl
  | cons b rest ih =>
    intro cache results
    simp only [fallbackToIndividualModel, renderIndividuallyGo, List.map_cons]
    exact ih _ _

/-- The dedup-and-partition pass of `renderBatchLocal` on pairwise
(trimmed-)distinct, entirely uncached blocks: nothing is served from
the cache, the cache is untouched, and the uncached list is the blocks
in order. -/
theorem dedupePartition_all_miss (config : Config) :
    ∀ (blocks : List String) (seen : List String) (results : List (String × String))
      (cache : Cache) (uncached : List UncachedBlock),
      (∀ b ∈ blocks, cache.lookup (blockHashKey config b) = none) →
      (∀ b ∈ blocks, jsTrim b ∉ seen) →
      ((blocks.map jsTrim).Nodup) →
      dedupePartition config seen results cache uncached blocks
        = (results, uncached ++ blocks.map (fun raw =>
            ⟨jsTrim raw, ensureStartEndTags (jsTrim raw), blockHashKey config raw⟩), cache) := by
  intro blocks
  induction blocks with
  | nil =>
    intro seen results cache uncached _ _ _
    simp [dedupePartition]
  | cons raw rest ih =>
    intro seen results cache uncached hmiss hseen hnd
    have hcontains : seen.contains (jsTrim raw) = false := by
      cases hc : seen.contains (jsTrim raw) with
      | false => rfl
      | true =>
        exact absurd (List.elem_iff.mp hc) (hseen raw (List.mem_cons_self _ _))
    have hget : cache.get (blockHashKey config raw) = (none, cache) :=
      LruCache.get_miss _ _ (hmiss raw (List.mem_cons_self _ _))
    rw [List.map_cons, List.nodup_cons] at hnd
    simp only [dedupePartition, hcontains, Bool.false_eq_true, if_false, hget]
    rw [List.map_cons]
    rw [show uncached ++ (⟨jsTrim raw, ensureStartEndTags (jsTrim raw), blockHashKey config raw⟩
          : UncachedBlock)
        :: rest.map (fun raw =>
            ⟨jsTrim raw, ensureStartEndTags (jsTrim raw), blockHashKey config raw⟩)
      = (uncached ++ [(⟨jsTrim raw, ensureStartEndTags (jsTrim raw), blockHashKey config raw⟩
          : UncachedBlock)])
        ++ rest.map (fun raw =>
            ⟨jsTrim raw, ensureStartEndTags (jsTrim raw), blockHashKey config raw⟩) by simp]
    exact ih (jsTrim raw :: seen) results cache _
      (fun b hb => hmiss b (List.mem_cons_of_mem _ hb))
      (fun b hb => by
        rw [List.mem_cons]
        push_neg
        refine ⟨?_, hseen b (List.mem_cons_of_mem _ hb)⟩
        intro he
        exact hnd.1 (he ▸ List.mem_map_of_mem jsTrim hb))
      hnd.2

/-- C6: when the single-JVM batch output splits into a number of
documents different from the number of (deduplicated, uncached) blocks,
`renderBatchLocal` discards the whole batch result and re-renders every
block individually, and - the per-block backend outcome being a
function of the content (determinism) - the final result map and cache
are exactly those of running the individual per-block rendering path
directly on those blocks. -/
theorem claim_C6_batch_fallback_equiv (cache : Cache) (blocks : List String)
    (config : Config) (stdout : String) (oracle : RenderOracle)
    (hjar : config.jarPath ≠ "")
    (hne : blocks ≠ [])
    (hnd : (blocks.map jsTrim).Nodup)
    (hmiss : ∀ b ∈ blocks, cache.lookup (blockHashKey config b) = none)
    (hcount : (splitSvgOutput stdout).length ≠ blocks.length) :
    renderBatchLocalModel cache blocks config (.output stdout) oracle
      = renderIndividuallySpec cache (blocks.map jsTrim) config oracle := by
  simp only [renderBatchLocalModel]
  rw [if_neg hjar]
  rw [dedupePartition_all_miss config blocks [] [] cache [] hmiss (by simp) hnd]
  obtain ⟨b0, rest0, hb⟩ : ∃ b0 rest0, blocks = b0 :: rest0 := by
    cases blocks with
    | nil => exact absurd rfl hne
    | cons b0 rest0 => exact ⟨b0, rest0, rfl⟩
  have hlen : (blocks.map (fun raw =>
      (⟨jsTrim raw, ensureStartEndTags (jsTrim raw), blockHashKey config raw⟩
        : UncachedBlock))).length = blocks.length := by simp
  have hemp : ([] ++ blocks.map (fun raw =>
      (⟨jsTrim raw, ensureStartEndTags (jsTrim raw), blockHashKey config raw⟩
        : UncachedBlock))).isEmpty = false := by
    rw [hb]
    simp
  simp only [List.nil_append] at hemp ⊢
  rw [hemp]
  simp only [Bool.false_eq_true, if_false]
  rw [if_pos (by rw [hlen]; exact hcount)]
  rw [fallback_eq_individual]
  simp only [renderIndividuallySpec, List.map_map]
  rfl

/-- Witness for C6: two distinct blocks, one output document. -/
theorem claim_C6_batch_fallback_equiv_witness :
    renderBatchLocalModel (LruCache.empty (List String) String 200) ["a", "b"]
        ⟨"jar", "", "", "", none⟩ (.output "<?xml x")
        (fun _ => .closeExit (some 0) "S" "")
      = renderIndividuallySpec (LruCache.empty (List String) String 200)
          (["a", "b"].map jsTrim) ⟨"jar", "", "", "", none⟩
          (fun _ => .closeExit (some 0) "S" "") :=
  claim_C6_batch_fallback_equiv (LruCache.empty (List String) String 200) ["a", "b"]
    ⟨"jar", "", "", "", none⟩ "<?xml x" (fun _ => .closeExit (some 0) "S" "")
    (by decide) (by decide) (by decide) (by decide) (by decide)

end PlantUml
